import Mathlib

/-!
# faas-flow template server (`template/faas-flow/main.go`)

A shallow embedding of the request shim of the faas-flow function template:

* `parseIntOrDurationValue` together with the two standard-library parsers it
  calls (`strconv.Atoi`, `time.ParseDuration`);
* the closure returned by `makeRequestHandler`, as a function from the inbound
  transport request to the record of everything the closure does: what it
  prints, the request it hands to the executor and the calls it makes on the
  `http.ResponseWriter` of `net/http`, in order, up to a panic of the writer;
* the state-store selection performed by `main`.

Go strings and byte slices are sequences of bytes; both are lists of naturals
here (a byte is a natural below 256).  `int` and `time.Duration` are signed
64-bit integers: they are `Int` with an explicit wrap to the 64-bit range
wherever the source does arithmetic on them.
-/

namespace FaasFlow

/-! ## Bytes, strings, machine integers -/

/-- A Go `[]byte`. -/
abbrev Bytes := List Nat

/-- A Go `string`: an immutable byte sequence. -/
abbrev GoString := List Nat

/-- The bytes of a string literal of the source (Go source text is UTF-8). -/
def utf8 (s : String) : GoString :=
  s.toUTF8.data.toList.map UInt8.toNat

/-- Two's-complement reduction of an integer to the `int64` range. -/
def wrap64 (x : Int) : Int :=
  (x + 2 ^ 63) % 2 ^ 64 - 2 ^ 63

/-- The constant `time.Nanosecond`. -/
def Nanosecond : Int := 1

/-- The constant `time.Microsecond`. -/
def Microsecond : Int := 1000 * Nanosecond

/-- The constant `time.Millisecond`. -/
def Millisecond : Int := 1000 * Microsecond

/-- The constant `time.Second`, a `time.Duration` counted in nanoseconds. -/
def Second : Int := 1000 * Millisecond

/-- The constant `time.Minute`. -/
def Minute : Int := 60 * Second

/-- The constant `time.Hour`. -/
def Hour : Int := 60 * Minute

/-- Whether a byte is an ASCII decimal digit, `'0' <= c && c <= '9'`. -/
def isDigit (c : Nat) : Bool :=
  decide (48 ≤ c) && decide (c ≤ 57)

/-! ## `strconv.Atoi` -/

/-- The digit loop of `strconv.Atoi` and `strconv.ParseUint` in base 10: the
value of a run of decimal digits, `none` at the first byte that is not a digit.
The accumulator is unbounded; the range check is made by the caller. -/
def parseDigits (n : Nat) : Bytes → Option Nat
  | [] => some n
  | ch :: s => if isDigit ch then parseDigits (n * 10 + (ch - 48)) s else none

/-- Embedding of Go `strconv.Atoi` on a 64-bit platform: an optional sign,
then one or more decimal digits, the value within the `int64` range.  `none`
stands for a non-nil error (syntax or range); the integer Go returns next to
an error is not represented, the caller reads it only when the error is nil. -/
def Atoi (s : GoString) : Option Int :=
  match s with
  | [] => none
  | c :: t =>
    let neg := c == 45
    let ds := if c == 45 || c == 43 then t else s
    match ds with
    | [] => none
    | _ :: _ =>
      match parseDigits 0 ds with
      | none => none
      | some un =>
        if neg then
          if un > 2 ^ 63 then none else some (-(un : Int))
        else
          if un ≥ 2 ^ 63 then none else some (un : Int)

/-! ## `time.ParseDuration` -/

/-- Embedding of `leadingInt` of package `time`: consumes `[0-9]*`, returns
the value and the rest, `none` when the value passes `1<<63`. -/
def leadingInt (x : Nat) : Bytes → Option (Nat × Bytes)
  | [] => some (x, [])
  | c :: s =>
    if c < 48 ∨ c > 57 then some (x, c :: s)
    else if x > 2 ^ 63 / 10 then none
    else
      let y := (x * 10 + c - 48) % 2 ^ 64
      if y > 2 ^ 63 then none else leadingInt y s

/-- A non-negative `float64`, as mantissa and binary exponent: the value is
`m * 2 ^ e`.  The exponent is unbounded: overflow to infinity and subnormal
precision are not represented.  In `time.ParseDuration` they arise only for a
scale above `10 ^ 300`, where the fraction contributes less than one
nanosecond and converts to 0 in Go and here alike. -/
structure Float64 where
  m : Nat
  e : Int

/-- The loop of `floorLog2`; `fuel` at least `n` is never exhausted. -/
def floorLog2Loop : Nat → Nat → Nat
  | 0, _ => 0
  | fuel + 1, n => if n < 2 then 0 else floorLog2Loop fuel (n / 2) + 1

/-- The position of the highest set bit of `n`: `2 ^ floorLog2 n ≤ n` for
positive `n`. -/
def floorLog2 (n : Nat) : Nat :=
  floorLog2Loop n n

/-- Rounding of the positive rational `a / b` to the nearest `float64`, ties
to even (IEEE 754 binary64, 53-bit significand); `0` for `a = 0`. -/
def roundFloat64 (a b : Nat) : Float64 :=
  if a = 0 ∨ b = 0 then ⟨0, 0⟩
  else
    let s0 : Int := 52 - ((floorLog2 a : Int) - (floorLog2 b : Int))
    let q0 := (a * 2 ^ s0.toNat) / (b * 2 ^ (-s0).toNat)
    let s : Int := if q0 < 2 ^ 52 then s0 + 1 else s0
    let num := a * 2 ^ s.toNat
    let den := b * 2 ^ (-s).toNat
    let q := num / den
    let r := num % den
    if 2 * r > den ∨ (2 * r = den ∧ q % 2 = 1) then ⟨q + 1, -s⟩ else ⟨q, -s⟩

/-- The conversion `float64(n)` of a `uint64`. -/
def Float64.ofNat (n : Nat) : Float64 :=
  roundFloat64 n 1

/-- The `float64` product `x * y`, rounded. -/
def Float64.mul (x y : Float64) : Float64 :=
  let p := roundFloat64 (x.m * y.m) 1
  ⟨p.m, p.e + x.e + y.e⟩

/-- The `float64` quotient `x / y`, rounded. -/
def Float64.div (x y : Float64) : Float64 :=
  let p := roundFloat64 x.m y.m
  ⟨p.m, p.e + x.e - y.e⟩

/-- The conversion `uint64(x)` of a `float64`: truncation toward zero. -/
def Float64.toUint64 (x : Float64) : Nat :=
  if 0 ≤ x.e then x.m * 2 ^ x.e.toNat else x.m / 2 ^ (-x.e).toNat

/-- Embedding of `leadingFraction` of package `time`: consumes `[0-9]*` after
the point and returns the digits read as an integer, the scale and the rest.
The scale is a `float64` that starts at 1 and is multiplied by 10, with
rounding, for every digit accepted: it is an exact power of ten only up to
`10 ^ 22`.  Digits past the precision of a `uint64` are skipped; leading zeros
are accepted without bound. -/
def leadingFraction (x : Nat) (scale : Float64) (overflow : Bool) :
    Bytes → Nat × Float64 × Bytes
  | [] => (x, scale, [])
  | c :: s =>
    if c < 48 ∨ c > 57 then (x, scale, c :: s)
    else if overflow then leadingFraction x scale true s
    else if x > (2 ^ 63 - 1) / 10 then leadingFraction x scale true s
    else
      let y := (x * 10 + c - 48) % 2 ^ 64
      if y > 2 ^ 63 then leadingFraction x scale true s
      else leadingFraction y (scale.mul (Float64.ofNat 10)) false s

/-- The expression `uint64(float64(f) * (float64(unit) / scale))` of
`time.ParseDuration`. -/
def fractionNanos (f unit : Nat) (scale : Float64) : Nat :=
  ((Float64.ofNat f).mul ((Float64.ofNat unit).div scale)).toUint64

/-- The table `unitMap` of package `time`, keyed by the bytes of the unit. -/
def unitMap (u : GoString) : Option Nat :=
  if u = utf8 "ns" then some Nanosecond.toNat
  else if u = utf8 "us" then some Microsecond.toNat
  else if u = [0xC2, 0xB5, 0x73] then some Microsecond.toNat
  else if u = [0xCE, 0xBC, 0x73] then some Microsecond.toNat
  else if u = utf8 "ms" then some Millisecond.toNat
  else if u = utf8 "s" then some Second.toNat
  else if u = utf8 "m" then some Minute.toNat
  else if u = utf8 "h" then some Hour.toNat
  else none

/-- The unit scan of `time.ParseDuration`: the bytes up to the next `'.'` or
digit, and the rest. -/
def spanUnit : Bytes → Bytes × Bytes
  | [] => ([], [])
  | c :: s =>
    if c == 46 || isDigit c then ([], c :: s)
    else (c :: (spanUnit s).1, (spanUnit s).2)

/-- The optional fraction `(\.[0-9]*)?` of one term of a duration: the digits
after the point, their scale, whether any digit was consumed, and the rest. -/
def fractionPart (s : Bytes) : Nat × Float64 × Bool × Bytes :=
  match s with
  | 46 :: t =>
    let r := leadingFraction 0 (Float64.ofNat 1) false t
    (r.1, r.2.1, t.length != r.2.2.length, r.2.2)
  | _ => (0, Float64.ofNat 1, false, s)

/-- One iteration of the loop `for s != ""` of `time.ParseDuration` on a
non-empty `s`, with `d` (a `uint64`) the sum so far: the rest of the string and
the new sum, `none` where the loop returns an error. -/
def parseDurationStep (s : Bytes) (d : Nat) : Option (Bytes × Nat) :=
  match s with
  | [] => none
  | c :: _ =>
    -- The next character must be [0-9.]
    if !(c == 46 || isDigit c) then none
    else
      -- Consume [0-9]*
      match leadingInt 0 s with
      | none => none
      | some (v, s1) =>
        let pre := s.length != s1.length
        -- Consume (\.[0-9]*)?
        let f := (fractionPart s1).1
        let scale := (fractionPart s1).2.1
        let post := (fractionPart s1).2.2.1
        let s2 := (fractionPart s1).2.2.2
        if !pre && !post then none
        else
          -- Consume unit.
          let u := (spanUnit s2).1
          let s3 := (spanUnit s2).2
          if u = [] then none
          else
            match unitMap u with
            | none => none
            | some unit =>
              if v > 2 ^ 63 / unit then none
              else
                let v1 := (v * unit) % 2 ^ 64
                let v2 := if f > 0 then (v1 + fractionNanos f unit scale) % 2 ^ 64 else v1
                if f > 0 ∧ v2 > 2 ^ 63 then none
                else
                  let d1 := (d + v2) % 2 ^ 64
                  if d1 > 2 ^ 63 then none
                  else some (s3, d1)

/-- The loop `for s != ""` of `time.ParseDuration`.  Every iteration consumes
at least one byte, so `fuel` above the length of `s` is never exhausted
(`parseDurationLoop_fuel`). -/
def parseDurationLoop : Nat → Bytes → Nat → Option Nat
  | 0, _, _ => none
  | fuel + 1, s, d =>
    match s with
    | [] => some d
    | _ :: _ =>
      match parseDurationStep s d with
      | none => none
      | some (s3, d1) => parseDurationLoop fuel s3 d1

/-- Embedding of Go `time.ParseDuration` (grammar
`[-+]?([0-9]*(\.[0-9]*)?[a-z]+)+`, with the special case `"0"`).  `none`
stands for a non-nil error. -/
def ParseDuration (s : GoString) : Option Int :=
  -- Consume [-+]?
  let neg := match s with
    | c :: _ => c == 45
    | [] => false
  let s1 := match s with
    | c :: t => if c == 45 || c == 43 then t else s
    | [] => s
  -- Special case: if all that is left is "0", this is zero.
  if s1 = [48] then some 0
  else if s1 = [] then none
  else
    match parseDurationLoop (s1.length + 1) s1 0 with
    | none => none
    | some d =>
      if neg then some (wrap64 (-(wrap64 d)))
      else if d > 2 ^ 63 - 1 then none
      else some (wrap64 d)

/-! ## `parseIntOrDurationValue` -/

/-- Embedding of `parseIntOrDurationValue` (main.go lines 97-110). -/
def parseIntOrDurationValue (val : GoString) (fallback : Int) : Int :=
  let viaAtoi : Option Int :=
    if val.length > 0 then
      match Atoi val with
      | some parsedVal => if parsedVal ≥ 0 then some (wrap64 (parsedVal * Second)) else none
      | none => none
    else none
  match viaAtoi with
  | some d => d
  | none =>
    match ParseDuration val with
    | none => fallback
    | some duration => duration


/-! ## The request handler -/

/-- A Go `error` value, carried by the text its `Error()` method returns. -/
structure GoError where
  Error : GoString
deriving DecidableEq

/-- The type `http.Header`, `map[string][]string`.  The list order stands for
the (unspecified) order in which a `range` over the map visits its keys. -/
abbrev Header := List (GoString × List GoString)

/-- HttpResponse of function call (main.go lines 15-25). -/
structure HttpResponse where
  Body : Bytes
  StatusCode : Int
  Header : Header
deriving DecidableEq

/-- HttpRequest of function call (main.go lines 28-34). -/
structure HttpRequest where
  Body : Bytes
  Header : Header
  QueryString : GoString
  Method : GoString
  Host : GoString
deriving DecidableEq

/-- The body of an inbound `*http.Request`, an `io.ReadCloser`: the bytes it
delivers, and the error that ends the stream (`none` for a clean EOF). -/
structure BodyReader where
  data : Bytes
  err : Option GoError
deriving DecidableEq

/-- Embedding of `ioutil.ReadAll`: reads until EOF or an error and returns the
bytes read so far together with the error (nil at EOF). -/
def ReadAll (r : BodyReader) : Bytes × Option GoError :=
  (r.data, r.err)

/-- The fields of `*http.Request` the handler reads; `Body` is `none` for a nil
`r.Body`, `RawQuery` is `r.URL.RawQuery`. -/
structure Request where
  Body : Option BodyReader
  Header : Header
  Method : GoString
  RawQuery : GoString
  Host : GoString
deriving DecidableEq

/-- A call made on the `http.ResponseWriter`. -/
inductive Call where
  /-- The assignment `w.Header()[k] = v`. -/
  | setHeader (k : GoString) (v : List GoString)
  /-- The call `w.Write(b)`. -/
  | write (b : Bytes)
  /-- The call `w.WriteHeader(statusCode)`. -/
  | writeHeader (statusCode : Int)
deriving DecidableEq

/-- The state of a `net/http` response: whether the status line is committed,
the committed status, and the body bytes sent. -/
structure Committed where
  wroteHeader : Bool
  status : Int
  body : Bytes
deriving DecidableEq

/-- The check `checkWriteHeaderCode` of `net/http`: a status code is accepted
when it has three digits. -/
def validStatusCode (statusCode : Int) : Bool :=
  decide (100 ≤ statusCode) && decide (statusCode ≤ 999)

/-- Whether a call on the `net/http` response writer panics: `WriteHeader`
does, for a status code outside 100..999, unless a status is committed
already (the call is then ignored before the code is looked at). -/
def Committed.panics (c : Committed) : Call → Bool
  | .writeHeader statusCode => !c.wroteHeader && !validStatusCode statusCode
  | _ => false

/-- The response-writer semantics of `net/http`: `WriteHeader` commits its
status unless one is committed already, in which case it is ignored, or the
status code is invalid, in which case it panics and commits nothing; `Write`
first commits status 200 when none is committed, then sends the bytes.  The
special treatment of informational (1xx) codes is not represented. -/
def Committed.step (c : Committed) : Call → Committed
  | .setHeader _ _ => c
  | .writeHeader statusCode =>
    if c.wroteHeader then c
    else if validStatusCode statusCode then { c with wroteHeader := true, status := statusCode }
    else c
  | .write b =>
    let c1 := if c.wroteHeader then c else { c with wroteHeader := true, status := 200 }
    { c1 with body := c1.body ++ b }

/-- The response a sequence of calls commits, from a fresh response writer. -/
def commit (cs : List Call) : Committed :=
  cs.foldl Committed.step { wroteHeader := false, status := 0, body := [] }

/-- What one run of the request handler does, each component in program order:
the format strings passed to `fmt.Printf`, the requests handed to
`openfaasExecutor.Handle`, the calls made on the `http.ResponseWriter`, and
whether the run ended in a panic of the response writer; the writer is the
one of `net/http`, on whose server `main` registers the handler. -/
structure Effects where
  stdout : List GoString
  handled : List HttpRequest
  w : List Call
  panicked : Bool
deriving DecidableEq

/-- The statement `fmt.Printf(format)`; not reached after a panic. -/
def Effects.Printf (s : Effects) (format : GoString) : Effects :=
  if s.panicked then s else { s with stdout := s.stdout ++ [format] }

/-- One call on the response writer; not reached after a panic, and the last
thing the run does when the call itself panics. -/
def Effects.call (s : Effects) (c : Call) : Effects :=
  if s.panicked then s
  else { s with w := s.w ++ [c], panicked := (commit s.w).panics c }

/-- The constant `http.StatusOK`. -/
def StatusOK : Int := 200

/-- The constant `http.StatusInternalServerError`. -/
def StatusInternalServerError : Int := 500

/-- The method `openFaasExecutor.Handle` is defined outside this file: it is a
parameter, a function of the executor's state store, the request and the
response it is given, returning the response as it left it and its error. -/
abbrev Handler (σ : Type) := σ → HttpRequest → HttpResponse → HttpResponse × Option GoError

/-- Embedding of lines 76-93 of the closure returned by `makeRequestHandler`:
the header copy, the status and the body, given the response and the error the
executor left. -/
def writeResponse (s2 : Effects) (response : HttpResponse) (responseErr : Option GoError) :
    Effects :=
  -- for k, v := range response.Header { w.Header()[k] = v }
  let s3 := response.Header.foldl (fun s kv => s.call (.setHeader kv.1 kv.2)) s2
  let s4 :=
    match responseErr with
    | some e =>
      let errorStr := utf8 "[ Failed ] " ++ e.Error ++ utf8 "\n"
      ((s3.Printf errorStr).call (.write errorStr)).call (.writeHeader StatusInternalServerError)
    | none =>
      if response.StatusCode = 0 then s3.call (.writeHeader StatusOK)
      else s3.call (.writeHeader response.StatusCode)
  s4.call (.write response.Body)

/-- Embedding of the closure returned by `makeRequestHandler` (main.go lines
46-94), run on the inbound request `r` with the process-wide `stateStore`;
lines 76-93 are `writeResponse`. -/
def makeRequestHandler {σ : Type} (stateStore : σ) (Handle : Handler σ) (r : Request) :
    Effects :=
  let s0 : Effects := { stdout := [], handled := [], w := [], panicked := false }
  -- var input []byte; if r.Body != nil { ... }
  let (input, s1) : Bytes × Effects :=
    match r.Body with
    | none => ([], s0)
    | some body =>
      let (bodyBytes, bodyErr) := ReadAll body
      let s := if bodyErr.isSome then s0.Printf (utf8 "Error reading body from request.") else s0
      (bodyBytes, s)
  let req : HttpRequest :=
    { Body := input
      Header := r.Header
      Method := r.Method
      QueryString := r.RawQuery
      Host := r.Host }
  let response0 : HttpResponse := { Body := [], StatusCode := 0, Header := [] }
  -- responseErr := openfaasExecutor.Handle(req, response)
  let (response, responseErr) := Handle stateStore req response0
  let s2 : Effects := { s1 with handled := s1.handled ++ [req] }
  writeResponse s2 response responseErr

/-- The calls setting the headers of a response, in the order of the `range`. -/
def headerCalls (h : Header) : List Call :=
  h.map fun kv => Call.setHeader kv.1 kv.2

/-- The value of `fmt.Sprintf("[ Failed ] %v\n", responseErr)`. -/
def failedText (e : GoError) : GoString :=
  utf8 "[ Failed ] " ++ e.Error ++ utf8 "\n"

/-- All the bytes passed to `w.Write`, in order. -/
def bodyBytes : List Call → Bytes
  | [] => []
  | .write b :: cs => b ++ bodyBytes cs
  | _ :: cs => bodyBytes cs

/-- Whether no body byte is written before the first `WriteHeader` call. -/
def noBodyBeforeStatus : List Call → Bool
  | [] => true
  | .writeHeader _ :: _ => true
  | .write b :: cs => b.isEmpty && noBodyBeforeStatus cs
  | .setHeader _ _ :: cs => noBodyBeforeStatus cs

/-! ## Startup -/

/-- The fields of the `http.Server` built by `main`. -/
structure Server where
  Addr : GoString
  ReadTimeout : Int
  WriteTimeout : Int
  MaxHeaderBytes : Nat
deriving DecidableEq

/-- The process after `main` has run up to `s.ListenAndServe()`: the
package-level `stateStore`, the messages passed to `log.Print`, and the
servers on which `ListenAndServe` was called. -/
structure Process (σ : Type) where
  stateStore : σ
  log : List GoString
  serving : List Server

/-- Embedding of `main` (main.go lines 112-136).  `os.Getenv`, the result of
`GetBoltStateStore` and the value `&DefaultStateStore{}` are defined outside
this file and are parameters. -/
def main {σ : Type} (Getenv : GoString → GoString)
    (GetBoltStateStore : GoString → σ × Option GoError) (DefaultStateStore : σ) : Process σ :=
  let readTimeout := parseIntOrDurationValue (Getenv (utf8 "read_timeout")) (10 * Second)
  let writeTimeout := parseIntOrDurationValue (Getenv (utf8 "write_timeout")) (10 * Second)
  let (store, err) := GetBoltStateStore (utf8 "default.db")
  let (stateStore, log1) : σ × List GoString :=
    if err.isSome then
      (DefaultStateStore,
        [utf8 "In-memory default StateStore initialized, Async and DAG request will fail without external StateStore"])
    else (store, [])
  let log2 := log1 ++
    [utf8 "File based default StateStore initialized, distributed DAG request may fail without external StateStore"]
  let s : Server :=
    { Addr := utf8 ":8082"
      ReadTimeout := readTimeout
      WriteTimeout := writeTimeout
      MaxHeaderBytes := 2 ^ 20 }
  { stateStore := stateStore, log := log2, serving := [s] }

/-! ## Concrete inputs -/

/-- An inbound `POST` with a two-valued header and the body `hi`, read to EOF. -/
def postRequest : Request :=
  { Body := some { data := utf8 "hi", err := none }
    Header := [(utf8 "Accept", [utf8 "text/plain", utf8 "text/html"])]
    Method := utf8 "POST"
    RawQuery := utf8 "q=1"
    Host := utf8 "gateway:8080" }

/-- The same inbound `POST`, whose body stream breaks after the bytes `hi`. -/
def brokenRequest : Request :=
  { postRequest with Body := some { data := utf8 "hi", err := some { Error := utf8 "unexpected EOF" } } }

/-- An executor that sets a header, a status and a body and then fails. -/
def failingHandle : Handler Unit :=
  fun _ _ response =>
    ({ response with
        Body := utf8 "partial"
        StatusCode := 404
        Header := [(utf8 "X-Flow", [utf8 "1"])] },
      some { Error := utf8 "boom" })

/-- An executor that echoes the request body with status 201 and no error. -/
def echoHandle : Handler Unit :=
  fun _ req response =>
    ({ response with
        Body := req.Body
        StatusCode := 201
        Header := [(utf8 "X-Flow", [utf8 "1"])] },
      none)

/-- An executor that returns no error and leaves the status code 99. -/
def outOfRangeHandle : Handler Unit :=
  fun _ _ response =>
    ({ response with
        Body := utf8 "short"
        StatusCode := 99
        Header := [(utf8 "X-Flow", [utf8 "1"])] },
      none)

/-! ## Lemmas on the embedding -/

/-- The request the handler builds from the inbound request (lines 47-67). -/
def handlerInput (r : Request) : HttpRequest :=
  { Body := match r.Body with
      | none => []
      | some body => body.data
    Header := r.Header
    Method := r.Method
    QueryString := r.RawQuery
    Host := r.Host }

/-- The fresh response the executor is given (lines 69-70). -/
def freshResponse : HttpResponse :=
  { Body := [], StatusCode := 0, Header := [] }

/-- The calls that follow the header copy (lines 80-93); the last one is the
`WriteHeader` call when that call panics. -/
def statusAndBody (response : HttpResponse) : Option GoError → List Call
  | some e => [.write (failedText e), .writeHeader 500, .write response.Body]
  | none =>
    if response.StatusCode = 0 then [.writeHeader 200, .write response.Body]
    else if validStatusCode response.StatusCode then
      [.writeHeader response.StatusCode, .write response.Body]
    else [.writeHeader response.StatusCode]

theorem wrap64_of_range (x : Int) (h0 : 0 ≤ x) (h1 : x < 2 ^ 63) : wrap64 x = x := by
  unfold wrap64
  norm_num at h1 ⊢
  omega

theorem foldl_step_headerCalls (hdr : Header) (c : Committed) :
    (headerCalls hdr).foldl Committed.step c = c := by
  induction hdr with
  | nil => simp [headerCalls]
  | cons kv t ih =>
    simp only [headerCalls, List.map_cons, List.foldl_cons, Committed.step] at ih ⊢
    exact ih

theorem commit_headerCalls (hdr : Header) (cs : List Call) :
    commit (headerCalls hdr ++ cs) = commit cs := by
  simp [commit, List.foldl_append, foldl_step_headerCalls]

theorem commit_headerCalls_nil (hdr : Header) :
    commit (headerCalls hdr) = { wroteHeader := false, status := 0, body := [] } := by
  have h := commit_headerCalls hdr []
  simpa [commit] using h

theorem foldl_setHeader (hdr : Header) (out : List GoString) (hd : List HttpRequest)
    (cs : List Call) :
    hdr.foldl (fun (s : Effects) (kv : GoString × List GoString) =>
          s.call (.setHeader kv.1 kv.2))
        { stdout := out, handled := hd, w := cs, panicked := false }
      = { stdout := out, handled := hd, w := cs ++ headerCalls hdr, panicked := false } := by
  induction hdr generalizing cs with
  | nil => simp [headerCalls]
  | cons kv t ih =>
    have hstep : Effects.call { stdout := out, handled := hd, w := cs, panicked := false }
        (.setHeader kv.1 kv.2)
        = { stdout := out, handled := hd, w := cs ++ [.setHeader kv.1 kv.2],
            panicked := false } := by
      simp [Effects.call, Committed.panics]
    rw [List.foldl_cons, hstep, ih]
    simp [headerCalls]

/-- The calls of `writeResponse` on a writer not used before. -/
theorem writeResponse_w (out : List GoString) (hd : List HttpRequest)
    (response : HttpResponse) (responseErr : Option GoError) :
    (writeResponse { stdout := out, handled := hd, w := [], panicked := false }
        response responseErr).w
        = headerCalls response.Header ++ statusAndBody response responseErr
      ∧ (writeResponse { stdout := out, handled := hd, w := [], panicked := false }
        response responseErr).handled = hd := by
  have h500 : validStatusCode 500 = true := by decide
  have h200 : validStatusCode 200 = true := by decide
  unfold writeResponse
  simp only [foldl_setHeader, List.nil_append]
  cases responseErr with
  | some e =>
    simp [statusAndBody, Effects.call, Effects.Printf, failedText, Committed.panics, h500,
      StatusInternalServerError]
  | none =>
    by_cases h0 : response.StatusCode = 0
    · simp [statusAndBody, Effects.call, Committed.panics, commit_headerCalls_nil, h200,
        StatusOK, h0]
    · by_cases hv : validStatusCode response.StatusCode = true
      · simp [statusAndBody, Effects.call, Committed.panics, commit_headerCalls_nil, hv, h0]
      · simp [statusAndBody, Effects.call, Committed.panics, commit_headerCalls_nil, hv, h0]

/-- What `writeResponse` prints: the failure text, on an error. -/
theorem writeResponse_stdout (out : List GoString) (hd : List HttpRequest)
    (response : HttpResponse) (responseErr : Option GoError) :
    (writeResponse { stdout := out, handled := hd, w := [], panicked := false }
        response responseErr).stdout
      = out ++ (match responseErr with
          | some e => [failedText e]
          | none => []) := by
  have h500 : validStatusCode 500 = true := by decide
  have h200 : validStatusCode 200 = true := by decide
  unfold writeResponse
  simp only [foldl_setHeader, List.nil_append]
  cases responseErr with
  | some e =>
    simp [Effects.call, Effects.Printf, failedText, Committed.panics, h500,
      StatusInternalServerError]
  | none =>
    by_cases h0 : response.StatusCode = 0
    · simp [Effects.call, Committed.panics, commit_headerCalls_nil, h200, StatusOK, h0]
    · by_cases hv : validStatusCode response.StatusCode = true
      · simp [Effects.call, Committed.panics, commit_headerCalls_nil, hv, h0]
      · simp [Effects.call, Committed.panics, commit_headerCalls_nil, hv, h0]

/-- The run of the handler, in terms of what the executor returned: the
executor is invoked exactly once, on `handlerInput r`, and the calls on the
response writer are the header copy followed by `statusAndBody`. -/
theorem makeRequestHandler_eq {σ : Type} (stateStore : σ) (Handle : Handler σ) (r : Request) :
    (makeRequestHandler stateStore Handle r).w
        = headerCalls (Handle stateStore (handlerInput r) freshResponse).1.Header
          ++ statusAndBody (Handle stateStore (handlerInput r) freshResponse).1
              (Handle stateStore (handlerInput r) freshResponse).2
      ∧ (makeRequestHandler stateStore Handle r).handled = [handlerInput r] := by
  unfold makeRequestHandler handlerInput freshResponse
  rcases r with ⟨rb, rh, rm, rq, rho⟩
  cases rb with
  | none =>
    simp only [List.nil_append]
    exact writeResponse_w _ _ _ _
  | some body =>
    simp only [ReadAll]
    by_cases hb : body.err.isSome
    · simp only [hb, if_true, Effects.Printf, Bool.false_eq_true, if_false, List.nil_append]
      exact writeResponse_w _ _ _ _
    · simp only [hb, Bool.false_eq_true, if_false, List.nil_append]
      exact writeResponse_w _ _ _ _

theorem makeRequestHandler_w {σ : Type} (stateStore : σ) (Handle : Handler σ) (r : Request) :
    (makeRequestHandler stateStore Handle r).w
      = headerCalls (Handle stateStore (handlerInput r) freshResponse).1.Header
        ++ statusAndBody (Handle stateStore (handlerInput r) freshResponse).1
            (Handle stateStore (handlerInput r) freshResponse).2 :=
  (makeRequestHandler_eq stateStore Handle r).1

theorem makeRequestHandler_handled {σ : Type} (stateStore : σ) (Handle : Handler σ)
    (r : Request) :
    (makeRequestHandler stateStore Handle r).handled = [handlerInput r] :=
  (makeRequestHandler_eq stateStore Handle r).2

theorem bodyBytes_headerCalls (hdr : Header) (cs : List Call) :
    bodyBytes (headerCalls hdr ++ cs) = bodyBytes cs := by
  induction hdr with
  | nil => simp [headerCalls]
  | cons kv t ih =>
    simp only [headerCalls, List.map_cons, List.cons_append, bodyBytes] at ih ⊢
    exact ih

theorem noBodyBeforeStatus_headerCalls (hdr : Header) (cs : List Call) :
    noBodyBeforeStatus (headerCalls hdr ++ cs) = noBodyBeforeStatus cs := by
  induction hdr with
  | nil => simp [headerCalls]
  | cons kv t ih =>
    simp only [headerCalls, List.map_cons, List.cons_append, noBodyBeforeStatus] at ih ⊢
    exact ih

theorem failedText_ne_nil (e : GoError) : failedText e ≠ [] := by
  have h : utf8 "[ Failed ] " = [91, 32, 70, 97, 105, 108, 101, 100, 32, 93, 32] := by decide
  simp [failedText, h]

/-! ## The response written by the request handler -/

/-- C1, the code as written: whenever the executor returns a non-nil error, the
handler calls `Write` with the failure text before it calls
`WriteHeader(500)`, so under the `net/http` response-writer semantics the
status committed is 200, not 500; the later `WriteHeader(500)` is ignored. -/
theorem error_response_commits_200 {σ : Type} (stateStore : σ) (Handle : Handler σ)
    (r : Request) (e : GoError)
    (h : (Handle stateStore (handlerInput r) freshResponse).2 = some e) :
    (commit (makeRequestHandler stateStore Handle r).w).status = 200
      ∧ (commit (makeRequestHandler stateStore Handle r).w).status
          ≠ StatusInternalServerError := by
  rw [makeRequestHandler_w, h, commit_headerCalls]
  simp [statusAndBody, commit, Committed.step, StatusInternalServerError]

theorem error_response_commits_200_witness :
    (failingHandle () (handlerInput postRequest) freshResponse).2
        = some { Error := utf8 "boom" }
      ∧ (commit (makeRequestHandler () failingHandle postRequest).w).status = 200 :=
  ⟨rfl, (error_response_commits_200 () failingHandle postRequest _ rfl).1⟩

/-- C2 as stated fails: the executor `failingHandle` returns the error `boom`
after writing the body `partial`, and the bytes the handler writes are not
the failure text alone. -/
theorem error_body_not_failedText_only :
    (failingHandle () (handlerInput postRequest) freshResponse).2
        = some { Error := utf8 "boom" }
      ∧ bodyBytes (makeRequestHandler () failingHandle postRequest).w
          = utf8 "[ Failed ] boom\npartial"
      ∧ bodyBytes (makeRequestHandler () failingHandle postRequest).w
          ≠ utf8 "[ Failed ] " ++ utf8 "boom" ++ utf8 "\n" := by
  decide

/-- C2 amended: whenever the executor returns a non-nil error `e`, the bytes
the handler writes to the transport are `"[ Failed ] " ++ text(e) ++ "\n"`
followed by the body the executor left in the response; they are the failure
text alone exactly when that body is empty. -/
theorem error_body_is_failedText_then_body {σ : Type} (stateStore : σ) (Handle : Handler σ)
    (r : Request) (e : GoError)
    (h : (Handle stateStore (handlerInput r) freshResponse).2 = some e) :
    bodyBytes (makeRequestHandler stateStore Handle r).w
        = utf8 "[ Failed ] " ++ e.Error ++ utf8 "\n"
          ++ (Handle stateStore (handlerInput r) freshResponse).1.Body
      ∧ (bodyBytes (makeRequestHandler stateStore Handle r).w
            = utf8 "[ Failed ] " ++ e.Error ++ utf8 "\n"
          ↔ (Handle stateStore (handlerInput r) freshResponse).1.Body = []) := by
  have hw : bodyBytes (makeRequestHandler stateStore Handle r).w
      = utf8 "[ Failed ] " ++ e.Error ++ utf8 "\n"
        ++ (Handle stateStore (handlerInput r) freshResponse).1.Body := by
    rw [makeRequestHandler_w, h, bodyBytes_headerCalls]
    simp [statusAndBody, bodyBytes, failedText]
  refine ⟨hw, ?_⟩
  rw [hw]
  exact List.append_right_eq_self

theorem error_body_is_failedText_then_body_witness :
    bodyBytes (makeRequestHandler () failingHandle postRequest).w
      = utf8 "[ Failed ] " ++ utf8 "boom" ++ utf8 "\n" ++ utf8 "partial" :=
  (error_body_is_failedText_then_body () failingHandle postRequest
    { Error := utf8 "boom" } rfl).1

/-- C3, the code as written: whenever the executor returns a non-nil error, the
calls on the response writer are the header assignments, then `Write` of the
(non-empty) failure text, and only then `WriteHeader(500)`, then `Write` of
the response body: body bytes are written before the explicit status write. -/
theorem error_writes_body_before_status {σ : Type} (stateStore : σ) (Handle : Handler σ)
    (r : Request) (e : GoError)
    (h : (Handle stateStore (handlerInput r) freshResponse).2 = some e) :
    (makeRequestHandler stateStore Handle r).w
        = headerCalls (Handle stateStore (handlerInput r) freshResponse).1.Header
          ++ [.write (failedText e), .writeHeader 500,
              .write (Handle stateStore (handlerInput r) freshResponse).1.Body]
      ∧ failedText e ≠ []
      ∧ noBodyBeforeStatus (makeRequestHandler stateStore Handle r).w = false := by
  have hne := failedText_ne_nil e
  refine ⟨?_, hne, ?_⟩
  · rw [makeRequestHandler_w, h]
    rfl
  · rw [makeRequestHandler_w, h, noBodyBeforeStatus_headerCalls]
    cases hf : failedText e with
    | nil => exact absurd hf hne
    | cons c t => simp [statusAndBody, noBodyBeforeStatus, hf]

theorem error_writes_body_before_status_witness :
    (makeRequestHandler () failingHandle brokenRequest).w
      = [.setHeader (utf8 "X-Flow") [utf8 "1"], .write (utf8 "[ Failed ] boom\n"),
          .writeHeader 500, .write (utf8 "partial")]
      ∧ noBodyBeforeStatus (makeRequestHandler () failingHandle brokenRequest).w = false :=
  ⟨(error_writes_body_before_status () failingHandle brokenRequest
      { Error := utf8 "boom" } rfl).1.trans (by decide),
    (error_writes_body_before_status () failingHandle brokenRequest
      { Error := utf8 "boom" } rfl).2.2⟩

/-- C4 as stated fails: the executor `outOfRangeHandle` returns no error
with the non-zero status code 99 and the body `short`; the handler passes 99
to `WriteHeader`, which panics in `net/http`, the call `Write(response.Body)`
of line 93 is never reached and no body byte is written. -/
theorem invalid_status_writes_no_body :
    (outOfRangeHandle () (handlerInput postRequest) freshResponse).2 = none
      ∧ (outOfRangeHandle () (handlerInput postRequest) freshResponse).1.Body = utf8 "short"
      ∧ (makeRequestHandler () outOfRangeHandle postRequest).w
          = [.setHeader (utf8 "X-Flow") [utf8 "1"], .writeHeader 99]
      ∧ (makeRequestHandler () outOfRangeHandle postRequest).panicked = true
      ∧ bodyBytes (makeRequestHandler () outOfRangeHandle postRequest).w ≠ utf8 "short" := by
  decide

/-- C4 amended: whenever the executor returns no error and leaves a status
code that is 0 or within 100..999, the handler copies the headers, then calls
`WriteHeader` once, with 200 when `StatusCode` is 0 and with `StatusCode`
itself otherwise, then calls `Write` once with the response body: the bytes
written are exactly that body. -/
theorem success_response {σ : Type} (stateStore : σ) (Handle : Handler σ)
    (r : Request) (h : (Handle stateStore (handlerInput r) freshResponse).2 = none)
    (hvalid : (Handle stateStore (handlerInput r) freshResponse).1.StatusCode = 0
      ∨ (100 ≤ (Handle stateStore (handlerInput r) freshResponse).1.StatusCode
          ∧ (Handle stateStore (handlerInput r) freshResponse).1.StatusCode ≤ 999)) :
    (makeRequestHandler stateStore Handle r).w
        = headerCalls (Handle stateStore (handlerInput r) freshResponse).1.Header
          ++ [.writeHeader
                (if (Handle stateStore (handlerInput r) freshResponse).1.StatusCode = 0 then 200
                  else (Handle stateStore (handlerInput r) freshResponse).1.StatusCode),
              .write (Handle stateStore (handlerInput r) freshResponse).1.Body]
      ∧ bodyBytes (makeRequestHandler stateStore Handle r).w
          = (Handle stateStore (handlerInput r) freshResponse).1.Body := by
  have hw : statusAndBody (Handle stateStore (handlerInput r) freshResponse).1 none
      = [.writeHeader
            (if (Handle stateStore (handlerInput r) freshResponse).1.StatusCode = 0 then 200
              else (Handle stateStore (handlerInput r) freshResponse).1.StatusCode),
          .write (Handle stateStore (handlerInput r) freshResponse).1.Body] := by
    rcases hvalid with h0 | ⟨h1, h2⟩
    · simp [statusAndBody, h0]
    · have hv : validStatusCode
          (Handle stateStore (handlerInput r) freshResponse).1.StatusCode = true := by
        simp [validStatusCode, h1, h2]
      have h0 : (Handle stateStore (handlerInput r) freshResponse).1.StatusCode ≠ 0 := by
        omega
      simp [statusAndBody, hv, h0]
  refine ⟨?_, ?_⟩
  · rw [makeRequestHandler_w, h, hw]
  · rw [makeRequestHandler_w, h, hw, bodyBytes_headerCalls]
    simp [bodyBytes]

theorem success_response_witness :
    (makeRequestHandler () echoHandle postRequest).w
      = [.setHeader (utf8 "X-Flow") [utf8 "1"], .writeHeader 201, .write (utf8 "hi")] :=
  (success_response () echoHandle postRequest rfl (Or.inr (by decide))).1.trans (by decide)

/-! ## The request handed to the executor -/

/-- C8 as stated fails: the body stream of `brokenRequest` breaks after the
bytes `hi`; the request handed to the executor carries those bytes, not an
empty body. -/
theorem read_failure_body_not_empty :
    (makeRequestHandler () echoHandle brokenRequest).handled.map HttpRequest.Body
        = [utf8 "hi"]
      ∧ (makeRequestHandler () echoHandle brokenRequest).handled.map HttpRequest.Body
        ≠ [[]] := by
  decide

/-- C8 amended: when reading the body fails, the executor is still invoked,
exactly once, on a request whose body is the bytes read before the failure
(empty only if none were read), and the calls made on the response writer are
those made for the same request whose body stream delivers the same bytes and
ends cleanly: the read error changes neither the status nor the body. -/
theorem read_failure_keeps_bytes_read {σ : Type} (stateStore : σ) (Handle : Handler σ)
    (r : Request) (body : BodyReader) (e : GoError)
    (hb : r.Body = some body) (he : body.err = some e) :
    (makeRequestHandler stateStore Handle r).handled
        = [{ Body := body.data, Header := r.Header, QueryString := r.RawQuery,
             Method := r.Method, Host := r.Host }]
      ∧ (makeRequestHandler stateStore Handle r).w
          = (makeRequestHandler stateStore Handle
              { r with Body := some { data := body.data, err := none } }).w
      ∧ (makeRequestHandler stateStore Handle r).stdout.head?
          = some (utf8 "Error reading body from request.") := by
  refine ⟨?_, ?_, ?_⟩
  · rw [makeRequestHandler_handled]
    simp [handlerInput, hb]
  · rw [makeRequestHandler_w, makeRequestHandler_w]
    simp [handlerInput, hb]
  · unfold makeRequestHandler
    simp only [hb, ReadAll, he, Option.isSome_some, if_true, Effects.Printf,
      Bool.false_eq_true, if_false, List.nil_append]
    rw [writeResponse_stdout]
    rfl

theorem read_failure_keeps_bytes_read_witness :
    (makeRequestHandler () echoHandle brokenRequest).handled
      = [{ Body := utf8 "hi", Header := postRequest.Header, QueryString := utf8 "q=1",
           Method := utf8 "POST", Host := utf8 "gateway:8080" }]
      ∧ (makeRequestHandler () echoHandle brokenRequest).w
          = (makeRequestHandler () echoHandle postRequest).w :=
  ⟨(read_failure_keeps_bytes_read () echoHandle brokenRequest
      { data := utf8 "hi", err := some { Error := utf8 "unexpected EOF" } }
      { Error := utf8 "unexpected EOF" } rfl rfl).1,
    (read_failure_keeps_bytes_read () echoHandle brokenRequest
      { data := utf8 "hi", err := some { Error := utf8 "unexpected EOF" } }
      { Error := utf8 "unexpected EOF" } rfl rfl).2.1⟩

/-- C9: when the body is read to EOF without error, the executor is invoked on
a request whose body is exactly the bytes of the transport body, whose header
is the transport header mapping itself, and whose method, query string and
host are the transport's method, raw query and host. -/
theorem request_copied_verbatim {σ : Type} (stateStore : σ) (Handle : Handler σ)
    (r : Request) (body : BodyReader) (hb : r.Body = some body) (_he : body.err = none) :
    (makeRequestHandler stateStore Handle r).handled
      = [{ Body := body.data, Header := r.Header, QueryString := r.RawQuery,
           Method := r.Method, Host := r.Host }] := by
  rw [makeRequestHandler_handled]
  simp [handlerInput, hb]

theorem request_copied_verbatim_witness :
    (makeRequestHandler () echoHandle postRequest).handled
      = [{ Body := utf8 "hi"
           Header := [(utf8 "Accept", [utf8 "text/plain", utf8 "text/html"])]
           QueryString := utf8 "q=1", Method := utf8 "POST", Host := utf8 "gateway:8080" }] :=
  request_copied_verbatim () echoHandle postRequest
    { data := utf8 "hi", err := none } rfl rfl

/-! ## State-store selection -/

/-- C10: after startup the process-wide `stateStore` is the store returned by
`GetBoltStateStore("default.db")` when that call returned a nil error, and
`&DefaultStateStore{}` when it returned an error; in both cases `main` goes
on to call `ListenAndServe` on its server, once. -/
theorem main_selects_stateStore {σ : Type} (Getenv : GoString → GoString)
    (GetBoltStateStore : GoString → σ × Option GoError) (DefaultStateStore : σ) :
    (main Getenv GetBoltStateStore DefaultStateStore).stateStore
        = (match (GetBoltStateStore (utf8 "default.db")).2 with
            | none => (GetBoltStateStore (utf8 "default.db")).1
            | some _ => DefaultStateStore)
      ∧ (main Getenv GetBoltStateStore DefaultStateStore).serving
        = [{ Addr := utf8 ":8082"
             ReadTimeout := parseIntOrDurationValue (Getenv (utf8 "read_timeout")) (10 * Second)
             WriteTimeout := parseIntOrDurationValue (Getenv (utf8 "write_timeout")) (10 * Second)
             MaxHeaderBytes := 2 ^ 20 }] := by
  unfold main
  cases h : (GetBoltStateStore (utf8 "default.db")).2 <;> simp [h]

/-! ## The binary logarithm used by the rounding -/

theorem floorLog2Loop_spec (fuel : Nat) :
    ∀ n : Nat, n ≤ fuel → 0 < n →
      2 ^ floorLog2Loop fuel n ≤ n ∧ n < 2 ^ (floorLog2Loop fuel n + 1) := by
  induction fuel with
  | zero => intro n h1 h2; omega
  | succ fuel ih =>
    intro n h1 h2
    unfold floorLog2Loop
    split
    · simp only [pow_zero, zero_add, pow_one]
      omega
    · have h := ih (n / 2) (by omega) (by omega)
      rw [pow_succ, pow_succ]
      omega

/-- Fuel `n` suffices: `floorLog2 n` is the position of the highest set bit. -/
theorem floorLog2_spec (n : Nat) (h : 0 < n) :
    2 ^ floorLog2 n ≤ n ∧ n < 2 ^ (floorLog2 n + 1) :=
  floorLog2Loop_spec n n (Nat.le_refl n) h

/-! ## Termination of the duration parser -/

theorem leadingInt_length (s : Bytes) :
    ∀ (x v : Nat) (s1 : Bytes), leadingInt x s = some (v, s1) → s1.length ≤ s.length := by
  induction s with
  | nil =>
    intro x v s1 h
    simp only [leadingInt, Option.some.injEq, Prod.mk.injEq] at h
    simp [← h.2]
  | cons c t ih =>
    intro x v s1 h
    unfold leadingInt at h
    split at h
    · simp only [Option.some.injEq, Prod.mk.injEq] at h
      simp [← h.2]
    · split at h
      · cases h
      · simp only at h
        split at h
        · cases h
        · have := ih _ _ _ h
          simp only [List.length_cons]
          omega

theorem leadingFraction_length (s : Bytes) :
    ∀ (x : Nat) (scale : Float64) (overflow : Bool),
      (leadingFraction x scale overflow s).2.2.length ≤ s.length := by
  induction s with
  | nil => intro x scale overflow; simp [leadingFraction]
  | cons c t ih =>
    intro x scale overflow
    unfold leadingFraction
    split
    · simp
    · split
      · have := ih x scale true
        simp only [List.length_cons]
        omega
      · split
        · have := ih x scale true
          simp only [List.length_cons]
          omega
        · simp only
          split
          · have := ih x scale true
            simp only [List.length_cons]
            omega
          · have := ih ((x * 10 + c - 48) % 2 ^ 64) (scale.mul (Float64.ofNat 10)) false
            simp only [List.length_cons]
            omega

theorem fractionPart_length (s : Bytes) : (fractionPart s).2.2.2.length ≤ s.length := by
  unfold fractionPart
  split
  · rename_i t
    have := leadingFraction_length t 0 (Float64.ofNat 1) false
    simp only [List.length_cons]
    omega
  · simp

theorem spanUnit_length (s : Bytes) :
    (spanUnit s).1.length + (spanUnit s).2.length = s.length := by
  induction s with
  | nil => simp [spanUnit]
  | cons c t ih =>
    unfold spanUnit
    split
    · simp
    · simp only [List.length_cons]
      omega

/-- Every iteration of the loop of `time.ParseDuration` consumes input. -/
theorem parseDurationStep_length (s s3 : Bytes) (d d1 : Nat)
    (h : parseDurationStep s d = some (s3, d1)) : s3.length < s.length := by
  unfold parseDurationStep at h
  split at h
  · cases h
  · rename_i c t
    split at h
    · cases h
    · split at h
      · cases h
      · rename_i v s1 hv
        have h1 := leadingInt_length _ _ _ _ hv
        have h2 := fractionPart_length s1
        have h3 := spanUnit_length (fractionPart s1).2.2.2
        simp only at h
        split at h
        · cases h
        · split at h
          · cases h
          · rename_i hu
            have hu1 : 0 < (spanUnit (fractionPart s1).2.2.2).1.length :=
              List.length_pos.mpr hu
            repeat' split at h
            all_goals first
              | (cases h; done)
              | (simp only [Option.some.injEq, Prod.mk.injEq] at h
                 rw [← h.1]
                 omega)

/-- Fuel above the length of the input is never exhausted: the loop of
`time.ParseDuration` gives the same result for any two such amounts. -/
theorem parseDurationLoop_fuel (f1 : Nat) :
    ∀ (f2 : Nat) (s : Bytes) (d : Nat), s.length < f1 → s.length < f2 →
      parseDurationLoop f1 s d = parseDurationLoop f2 s d := by
  induction f1 with
  | zero => intro f2 s d h1; omega
  | succ f1 ih =>
    intro f2 s d h1 h2
    cases f2 with
    | zero => omega
    | succ f2 =>
      cases s with
      | nil => rfl
      | cons c t =>
        unfold parseDurationLoop
        cases hstep : parseDurationStep (c :: t) d with
        | none => rfl
        | some p =>
          obtain ⟨s3, d1⟩ := p
          have hlt := parseDurationStep_length _ _ _ _ hstep
          simp only
          exact ih f2 s3 d1 (by omega) (by omega)

/-- The embedding of `time.ParseDuration` agrees with the table of
`TestParseDuration` of the Go distribution on these entries. -/
theorem ParseDuration_examples :
    ParseDuration (utf8 "0") = some 0
      ∧ ParseDuration (utf8 "5s") = some (5 * Second)
      ∧ ParseDuration (utf8 "-1.5h") = some (-(90 * Minute))
      ∧ ParseDuration (utf8 "1h15m30.918273645s")
          = some (1 * Hour + 15 * Minute + 30 * Second + 918273645 * Nanosecond)
      ∧ ParseDuration (utf8 "0.3333333333333333333h") = some (20 * Minute)
      ∧ ParseDuration (utf8 "0.830103483285477580700h")
          = some (49 * Minute + 48 * Second + 372539827 * Nanosecond)
      ∧ ParseDuration (utf8 "9223372036854775.807us") = some (2 ^ 63 - 1)
      ∧ ParseDuration (utf8 "-2562047h47m16.854775808s") = some (-2 ^ 63)
      ∧ ParseDuration (utf8 "12µs") = some (12 * Microsecond)
      ∧ ParseDuration (utf8 "") = none
      ∧ ParseDuration (utf8 "3") = none
      ∧ ParseDuration (utf8 "+.s") = none
      ∧ ParseDuration (utf8 "1d") = none
      ∧ ParseDuration (utf8 "9223372036854775808ns") = none := by
  decide!

/-- A fraction of 23 digits: the scale `10 ^ 23` is not a `float64` and is
rounded, and the fraction comes to 62 ns, not to the 61 ns of an exact scale. -/
theorem ParseDuration_rounded_scale :
    ParseDuration (utf8 "0.00000006199999999999999s") = some 62 := by
  decide!

/-! ## Timeout values -/

theorem Atoi_nil : Atoi [] = none := rfl

/-- The integer-seconds branch: a non-negative `Atoi` result is returned as
that many seconds, the product taken in `int64`. -/
theorem parseIntOrDurationValue_of_Atoi (val : GoString) (fallback n : Int)
    (h : Atoi val = some n) (hn : 0 ≤ n) :
    parseIntOrDurationValue val fallback = wrap64 (n * Second) := by
  have hlen : val.length > 0 := by
    cases val with
    | nil => simp [Atoi_nil] at h
    | cons c t => simp
  simp [parseIntOrDurationValue, h, hn, hlen]

/-- The duration branch: without a non-negative `Atoi` result the value is
what `time.ParseDuration` returns, or the fallback on its error. -/
theorem parseIntOrDurationValue_of_not_Atoi (val : GoString) (fallback : Int)
    (h : ∀ n, Atoi val = some n → n < 0) :
    parseIntOrDurationValue val fallback
      = (match ParseDuration val with
          | some duration => duration
          | none => fallback) := by
  unfold parseIntOrDurationValue
  cases hA : Atoi val with
  | none =>
    simp only [ite_self]
    cases ParseDuration val <;> rfl
  | some n =>
    have hn : ¬ n ≥ 0 := by have := h n hA; omega
    simp only [hn, ite_self, if_false]
    cases ParseDuration val <;> rfl

/-- A duration string that `time.ParseDuration` accepts and that does not
start with `-` denotes a non-negative duration. -/
theorem ParseDuration_nonneg (s : GoString) (d : Int) (hs : s.head? ≠ some 45)
    (h : ParseDuration s = some d) : 0 ≤ d := by
  unfold ParseDuration at h
  cases s with
  | nil => simp at h
  | cons c t =>
    have hc : (c == 45) = false := by
      simp only [List.head?_cons, ne_eq, Option.some.injEq] at hs
      simpa using hs
    simp only [hc, Bool.false_or] at h
    generalize (if (c == 43) = true then t else c :: t) = s1 at h
    by_cases h48 : s1 = [48]
    · simp only [h48, if_true, Option.some.injEq] at h
      omega
    · by_cases hnil : s1 = []
      · simp [hnil] at h
      · simp only [h48, hnil, if_false, Bool.false_eq_true] at h
        cases hL : parseDurationLoop (s1.length + 1) s1 0 with
        | none => simp [hL] at h
        | some d0 =>
          simp only [hL] at h
          by_cases hd0 : d0 > 2 ^ 63 - 1
          · rw [if_pos hd0] at h
            cases h
          · rw [if_neg hd0, Option.some.injEq] at h
            have h0 : (0 : Int) ≤ (d0 : Int) := by omega
            have h1 : (d0 : Int) < 2 ^ 63 := by
              have : d0 ≤ 2 ^ 63 - 1 := Nat.le_of_not_lt hd0
              norm_num at this ⊢
              omega
            rw [wrap64_of_range _ h0 h1] at h
            omega

/-- Where the value returned is not negative: for a fallback ≥ 0, a raw string
that is not a
negative duration (one that starts with `-` and that `time.ParseDuration`
accepts with a non-zero value) and, if it is an integer string, whose count
of seconds times 10^9 fits in an `int64`.  This covers `"-1"`, which the guard
`parsedVal >= 0` sends to the fallback. -/
theorem parseIntOrDurationValue_nonneg (raw : GoString) (fallback : Int)
    (hf : 0 ≤ fallback)
    (hdur : raw.head? = some 45 → ParseDuration raw = none ∨ ParseDuration raw = some 0)
    (hfit : ∀ n, Atoi raw = some n → n * Second < 2 ^ 63) :
    0 ≤ parseIntOrDurationValue raw fallback := by
  by_cases hA : ∃ n, Atoi raw = some n ∧ 0 ≤ n
  · obtain ⟨n, hn, h0⟩ := hA
    rw [parseIntOrDurationValue_of_Atoi raw fallback n hn h0]
    have hpos : 0 ≤ n * Second := by
      have : (0 : Int) ≤ Second := by decide
      positivity
    rw [wrap64_of_range _ hpos (hfit n hn)]
    exact hpos
  · have hneg : ∀ n, Atoi raw = some n → n < 0 := by
      intro n hn
      by_contra hlt
      exact hA ⟨n, hn, by omega⟩
    rw [parseIntOrDurationValue_of_not_Atoi raw fallback hneg]
    cases hP : ParseDuration raw with
    | none => exact hf
    | some d =>
      by_cases hm : raw.head? = some 45
      · rcases hdur hm with h | h
        · rw [h] at hP
          cases hP
        · rw [h] at hP
          cases hP
          exact le_refl 0
      · exact ParseDuration_nonneg raw d hm hP

theorem parseIntOrDurationValue_nonneg_minus_one :
    0 ≤ parseIntOrDurationValue (utf8 "-1") (5 * Second) :=
  parseIntOrDurationValue_nonneg (utf8 "-1") (5 * Second) (by decide)
    (fun _ => Or.inl (by decide))
    (by
      intro n hn
      have h : Atoi (utf8 "-1") = some (-1) := by decide
      rw [h] at hn
      cases hn
      decide)

/-- C5, the code as written: the only sign check of the function is the guard
`parsedVal >= 0` on the integer read by `strconv.Atoi` (line 100).  It sends
`"-1"` to the fallback, but the value of `time.ParseDuration` is returned
unchecked (line 109) and the product with `time.Second` is taken after the
guard (line 101): with the fallback 5s ≥ 0, `"-5s"` returns -5s and the
integer string `"9999999999"` returns a negative duration. -/
theorem negative_duration_accepted :
    0 ≤ 5 * Second
      ∧ parseIntOrDurationValue (utf8 "-1") (5 * Second) = 5 * Second
      ∧ parseIntOrDurationValue (utf8 "-5s") (5 * Second) = -5 * Second
      ∧ ¬ 0 ≤ parseIntOrDurationValue (utf8 "-5s") (5 * Second)
      ∧ parseIntOrDurationValue (utf8 "9999999999") (5 * Second) = -8446744074709551616
      ∧ ¬ 0 ≤ parseIntOrDurationValue (utf8 "9999999999") (5 * Second) := by
  decide

/-- C6 as stated fails: `9223372037` parses as a non-negative integer, and
the value returned is not 9223372037 seconds: the product with `time.Second`
leaves the `int64` range and wraps to a negative duration. -/
theorem integer_seconds_overflow :
    Atoi (utf8 "9223372037") = some 9223372037
      ∧ parseIntOrDurationValue (utf8 "9223372037") (5 * Second) = -9223372036709551616
      ∧ parseIntOrDurationValue (utf8 "9223372037") (5 * Second) ≠ 9223372037 * Second := by
  decide

/-- C6 amended: for a raw string that `strconv.Atoi` parses as an integer
`n ≥ 0`, the value returned is `n * 10^9` ns reduced to the `int64` range,
whatever the fallback; it is exactly `n` whole seconds when `n ≤ 9223372036`.
In particular `"30"` with fallback 5s gives 30s. -/
theorem parseIntOrDurationValue_integer_seconds (raw : GoString) (fallback n : Int)
    (h : Atoi raw = some n) (hn : 0 ≤ n) :
    parseIntOrDurationValue raw fallback = wrap64 (n * 1000000000)
      ∧ (n ≤ 9223372036 → parseIntOrDurationValue raw fallback = n * 1000000000)
      ∧ parseIntOrDurationValue (utf8 "30") (5 * Second) = 30 * Second := by
  have hS : Second = 1000000000 := by decide
  have hw := parseIntOrDurationValue_of_Atoi raw fallback n h hn
  rw [hS] at hw
  refine ⟨hw, ?_, by decide⟩
  intro hle
  rw [hw]
  apply wrap64_of_range
  · omega
  · norm_num
    omega

theorem parseIntOrDurationValue_integer_seconds_witness :
    parseIntOrDurationValue (utf8 "8") (5 * Second) = 8 * 1000000000 :=
  (parseIntOrDurationValue_integer_seconds (utf8 "8") (5 * Second) 8
    (by decide) (by decide)).2.1 (by decide)

/-- C7: for a raw string that is empty or that `strconv.Atoi` does not parse
as a non-negative integer, the value returned is the result of
`time.ParseDuration` when it succeeds and the fallback, unchanged, when it
fails.  In particular `"2m"` gives 120s and `""`, `"-1"`, `"bogus"` give the
fallback 5s. -/
theorem parseIntOrDurationValue_duration_or_fallback (raw : GoString) (fallback : Int)
    (h : raw = [] ∨ ∀ n, Atoi raw = some n → n < 0) :
    parseIntOrDurationValue raw fallback
        = (match ParseDuration raw with
            | some duration => duration
            | none => fallback)
      ∧ parseIntOrDurationValue (utf8 "2m") (5 * Second) = 120 * Second
      ∧ parseIntOrDurationValue (utf8 "") (5 * Second) = 5 * Second
      ∧ parseIntOrDurationValue (utf8 "-1") (5 * Second) = 5 * Second
      ∧ parseIntOrDurationValue (utf8 "bogus") (5 * Second) = 5 * Second := by
  refine ⟨?_, by decide, by decide, by decide, by decide⟩
  apply parseIntOrDurationValue_of_not_Atoi
  rcases h with h | h
  · subst h
    intro n hn
    simp [Atoi_nil] at hn
  · exact h

theorem parseIntOrDurationValue_duration_or_fallback_witness :
    parseIntOrDurationValue (utf8 "1.5h") (5 * Second) = 90 * Minute :=
  (parseIntOrDurationValue_duration_or_fallback (utf8 "1.5h") (5 * Second)
    (Or.inr (by
      intro n hn
      have h : Atoi (utf8 "1.5h") = none := by decide
      rw [h] at hn
      cases hn))).1.trans (by decide!)

end FaasFlow
